import Mathlib

/-!
Shallow embedding of the nostr-badges badge-acceptance core
(`src/recipient_acceptance.py`, `src/relay_manager.py`, `src/nostr_utils.py`,
`src/badge_manager.py`) and proofs about the spec's claims.

Modelling conventions:
* Python strings are modelled as `List Char` (`Str`); per-character ASCII
  lowering models `str.lower()` (identical on the ASCII inputs this code
  handles).
* A badge pair is `(a_tag, e_tag)` where the `e_tag` may be Python `None`
  (produced by `parse_profile_badges_pairs` when an `a` tag is not followed
  by an `e` tag), hence `Str × Option Str`.
* Python exceptions are modelled with `Except`: calling `len(None)` inside
  `validate_badge_pair` raises `TypeError`, which the model propagates as
  an `Except.error` value up to `merge_badge_pairs`' top-level handler.
* The backup directory is modelled as a `Store`: a list of snapshot files,
  each with its filename key `(timestamp, first 8 chars of the event id)`,
  its modification time, and its stored pairs.  Writing to an existing
  filename overwrites, exactly as `open(path, "w")` does.
* Human-readable message strings are abstracted into inductive tags that
  record which message the source would have produced.
-/

namespace NostrBadges

abbrev Str := List Char

/-- A badge pair `(a_tag, e_tag)`; the award reference may be Python `None`. -/
abbrev BadgePair := Str × Option Str

/-- The characters of the Python literal `"0123456789abcdef"`. -/
def hexDigits : Str := "0123456789abcdef".data

/-- Per-character model of `str.lower()` (ASCII range, as in `Char.toLower`). -/
def lowerChar (c : Char) : Char := Char.toLower c

/-- Models `all(c in "0123456789abcdef" for c in s.lower())`. -/
def isHexCI (s : Str) : Bool := s.all (fun c => hexDigits.contains (lowerChar c))

/-- Python `s.split(":")` semantics (unlimited split, keeps empty segments). -/
def splitColon : Str → List Str
  | [] => [[]]
  | c :: cs =>
    if c = ':' then [] :: splitColon cs
    else
      match splitColon cs with
      | [] => [[c]]
      | seg :: rest => (c :: seg) :: rest

/-- Which validation error message `validate_badge_pair` produced. -/
inductive VErr
  | invalidATagFormat
  | invalidATagStructure
  | invalidPubkey
  | emptyIdentifier
  | invalidEventId
  deriving DecidableEq

/-- A Python exception escaping a modelled function. -/
inductive PyErr
  | typeErrorLenNone
  deriving DecidableEq

/--
`validate_badge_pair` (recipient_acceptance.py lines 336-370).
Returns `.ok none` when the pair is valid, `.ok (some err)` when it is
rejected with an error message, and `.error` when the Python code would
raise (`len(e_tag)` with `e_tag = None`).
-/
def validate_badge_pair (aTag : Str) (eTag : Option Str) : Except PyErr (Option VErr) :=
  if ¬ (List.isPrefixOf "30009:".data aTag) then .ok (some .invalidATagFormat)
  else
    let parts := splitColon aTag
    if parts.length ≠ 3 then .ok (some .invalidATagStructure)
    else
      let pubkeyPart := parts.getD 1 []
      let identifierPart := parts.getD 2 []
      if ¬ (pubkeyPart.length = 64 ∧ isHexCI pubkeyPart) then .ok (some .invalidPubkey)
      else if identifierPart.isEmpty then .ok (some .emptyIdentifier)
      else
        match eTag with
        | none => .error .typeErrorLenNone
        | some e =>
          if ¬ (e.length = 64 ∧ isHexCI e) then .ok (some .invalidEventId)
          else .ok none

/-- View of `Except` as a sum, used to derive decidable equality. -/
def exceptToSum {ε α : Type} : Except ε α → ε ⊕ α
  | .error e => .inl e
  | .ok a => .inr a

instance {ε α : Type} [DecidableEq ε] [DecidableEq α] : DecidableEq (Except ε α) :=
  fun a b =>
    decidable_of_iff (exceptToSum a = exceptToSum b)
      (by cases a <;> cases b <;> simp [exceptToSum])

/-- A pair that `validate_badge_pair` accepts. -/
def pairValid (p : BadgePair) : Prop := validate_badge_pair p.1 p.2 = .ok none

instance (p : BadgePair) : Decidable (pairValid p) := by
  unfold pairValid; infer_instance

/-- Helper for `validate_badge_pairs`: walks the list with 1-based indices,
collecting `(index, error)` reports and the valid pairs, in order. -/
def validatePairsGo : Nat → List BadgePair → Except PyErr (List (Nat × VErr) × List BadgePair)
  | _, [] => .ok ([], [])
  | i, p :: rest =>
    match validate_badge_pair p.1 p.2 with
    | .error e => .error e
    | .ok res =>
      match validatePairsGo (i + 1) rest with
      | .error e => .error e
      | .ok (errs, valids) =>
        match res with
        | none => .ok (errs, p :: valids)
        | some err => .ok ((i, err) :: errs, valids)

/--
`validate_badge_pairs` (recipient_acceptance.py lines 372-395): returns
`(all_valid, error_reports, valid_pairs)`; an exception raised by
`validate_badge_pair` propagates.
-/
def validate_badge_pairs (pairs : List BadgePair) :
    Except PyErr (Bool × List (Nat × VErr) × List BadgePair) :=
  match validatePairsGo 1 pairs with
  | .error e => .error e
  | .ok (errs, valids) => .ok (errs.isEmpty, errs, valids)


/-!  ## Backup Store (`badge_backups/` directory)  -/

/-- One backup file: its filename key `(timestamp, event_id[:8])`, its
modification time, and the stored badge pairs. -/
structure Snapshot where
  name : Nat × Str
  mtime : Nat
  pairs : List BadgePair
  deriving DecidableEq

/-- The backup directory: the set of `profile_badges_*.json` files. -/
abbrev Store := List Snapshot

/--
`create_backup` (recipient_acceptance.py lines 397-428) at wall-clock time
`t`: writes `profile_badges_{t}_{event_id[:8]}.json`.  Writing to an
existing filename overwrites that file (and refreshes its mtime);
otherwise a new file appears.
-/
def create_backup (t : Nat) (eventId : Str) (ps : List BadgePair) (store : Store) : Store :=
  let key := (t, eventId.take 8)
  if store.any (fun s => s.name = key) then
    store.map (fun s => if s.name = key then ⟨key, t, ps⟩ else s)
  else
    store ++ [⟨key, t, ps⟩]

/-- `max(backup_files, key=mtime)`: first file with maximal mtime
(in listing order), or `none` for an empty directory. -/
def latestSnapshot : Store → Option Snapshot
  | [] => none
  | s :: rest =>
    match latestSnapshot rest with
    | none => some s
    | some m => some (if m.mtime > s.mtime then m else s)

/-- `load_latest_backup` (recipient_acceptance.py lines 446-470). -/
def load_latest_backup (store : Store) : Option (List BadgePair) :=
  (latestSnapshot store).map (·.pairs)

/-- Stable insertion into a list sorted by decreasing mtime. -/
def insertByMtime (s : Snapshot) : Store → Store
  | [] => [s]
  | t :: ts => if t.mtime > s.mtime then t :: insertByMtime s ts else s :: t :: ts

/-- Sort the directory listing by mtime, most recent first
(`backup_files.sort(key=mtime, reverse=True)`). -/
def sortByMtime : Store → Store
  | [] => []
  | s :: rest => insertByMtime s (sortByMtime rest)

/-- `max_backups` (recipient_acceptance.py line 30). -/
def max_backups : Nat := 5

/-- `cleanup_old_backups` (recipient_acceptance.py lines 430-444): deletes
every file beyond the `max_backups` most recently modified ones. -/
def cleanup_old_backups (store : Store) : Store :=
  if store.length ≤ max_backups then store else (sortByMtime store).take max_backups

/-!  ## Merge Engine (`merge_badge_pairs`)  -/

/-- Which merge failure message `merge_badge_pairs` produced. -/
inductive MergeErr
  | invalidNewPair (e : VErr)
  | mergeValidationFailed (errs : List (Nat × VErr))
  | badgeLoss
  | exceptionRecoveredFromBackup (e : PyErr)
  | exceptionNoBackup (e : PyErr)
  deriving DecidableEq

/-- The `(success, error_message, merged_pairs)` triple. -/
abbrev MergeTriple := Bool × Option MergeErr × List BadgePair

/-- Step 5 of the merge: deduplicate preserving first-seen order, using a
`seen` set of structural keys. -/
def dedupGo (seen : List BadgePair) : List BadgePair → List BadgePair
  | [] => []
  | p :: rest => if p ∈ seen then dedupGo seen rest else p :: dedupGo (p :: seen) rest

/-- Deduplicate a pair list preserving first-seen order. -/
def dedupPairs (l : List BadgePair) : List BadgePair := dedupGo [] l

/-- `event_id = f"pre_merge_{int(time.time())}"` used for the step-3 backup. -/
def preMergeEventId (t : Nat) : Str := ("pre_merge_" ++ toString t).data

/-- Error data carried to `merge_badge_pairs`' exception handler: the raised
exception, the current value of the `existing_pairs` variable at the raise
point, and the backup store at that moment. -/
abbrev MergeRaise := PyErr × List BadgePair × Store

/--
Step 1 of `merge_badge_pairs` (lines 564-580): validate the existing
pairs; on invalid, replace them with the latest backup (if non-empty) or
with the empty list; on all-valid, use the valid subset.
-/
def mergeStep1 (store : Store) (existing : List BadgePair) :
    Except MergeRaise (List BadgePair) :=
  if existing.isEmpty then .ok existing
  else
    match validate_badge_pairs existing with
    | .error e => .error (e, existing, store)
    | .ok (isValid, _errs, validExisting) =>
      if isValid then .ok validExisting
      else
        match load_latest_backup store with
        | some bp => .ok (if bp.isEmpty then [] else bp)
        | none => .ok []

/-- The store after step 3 of the merge (lines 587-590): a pre-merge
backup is written only when the (possibly recovered) existing list is
non-empty. -/
def mergePreBackupStore (t : Nat) (store : Store) (ex1 : List BadgePair) : Store :=
  if ex1.isEmpty then store else create_backup t (preMergeEventId t) ex1 store

/--
Steps 2-7 of `merge_badge_pairs` (lines 582-618), starting from the
(possibly recovered) existing pairs `ex1`.
-/
def mergeSteps2to7 (t : Nat) (store : Store) (ex1 : List BadgePair) (newPair : BadgePair) :
    Except MergeRaise (MergeTriple × Store) :=
  match validate_badge_pair newPair.1 newPair.2 with
  | .error e => .error (e, ex1, store)
  | .ok (some verr) => .ok ((false, some (.invalidNewPair verr), ex1), store)
  | .ok none =>
    match validate_badge_pairs (dedupPairs (ex1 ++ [newPair])) with
    | .error e => .error (e, ex1, mergePreBackupStore t store ex1)
    | .ok (isValid6, errs6, _validMerged) =>
      if ¬ isValid6 then
        .ok ((false, some (.mergeValidationFailed errs6), ex1), mergePreBackupStore t store ex1)
      else if (dedupPairs (ex1 ++ [newPair])).length < ex1.length then
        .ok ((false, some .badgeLoss, ex1), mergePreBackupStore t store ex1)
      else .ok ((true, none, dedupPairs (ex1 ++ [newPair])), mergePreBackupStore t store ex1)

/-- The body of the `try` block of `merge_badge_pairs` (lines 563-618). -/
def mergeCore (t : Nat) (store : Store) (existing : List BadgePair) (newPair : BadgePair) :
    Except MergeRaise (MergeTriple × Store) :=
  match mergeStep1 store existing with
  | .error d => .error d
  | .ok ex1 => mergeSteps2to7 t store ex1 newPair

/--
`merge_badge_pairs` (recipient_acceptance.py lines 548-629).  `t` models
`int(time.time())` during the call; the result pairs the returned
`(success, error_message, merged_pairs)` triple with the backup store
after the call.  The `except` handler (lines 620-629) loads the latest
backup and falls back to the current `existing_pairs` value.
-/
def merge_badge_pairs (t : Nat) (store : Store) (existing : List BadgePair)
    (newPair : BadgePair) : MergeTriple × Store :=
  match mergeCore t store existing newPair with
  | .ok r => r
  | .error (e, exNow, storeNow) =>
    match load_latest_backup storeNow with
    | some bp =>
      if bp.isEmpty then ((false, some (.exceptionNoBackup e), exNow), storeNow)
      else ((false, some (.exceptionRecoveredFromBackup e), bp), storeNow)
    | none => ((false, some (.exceptionNoBackup e), exNow), storeNow)

-- Concrete well-formed references used throughout the examples:
/-- `"30009:" + "a"*64 + ":welcome"` — a valid badge definition reference. -/
def aGood : Str :=
  "30009:aaaaaaaaaaaaaaaaaaaaaaaaaaaaaaaaaaaaaaaaaaaaaaaaaaaaaaaaaaaaaaaa:welcome".data

/-- `"b"*64` — a valid (lowercase hex) award event id. -/
def eGood : Str := "bbbbbbbbbbbbbbbbbbbbbbbbbbbbbbbbbbbbbbbbbbbbbbbbbbbbbbbbbbbbbbbb".data

/-- `"c"*64` — a second valid award event id. -/
def eGood2 : Str := "cccccccccccccccccccccccccccccccccccccccccccccccccccccccccccccccc".data

/-- `"B"*64` — uppercase hex award event id. -/
def eUpper : Str := "BBBBBBBBBBBBBBBBBBBBBBBBBBBBBBBBBBBBBBBBBBBBBBBBBBBBBBBBBBBBBBBB".data


/-!  ## Query Engine (`fetch_existing_profile_badges`)  -/

/-- Event payloads are abstracted as identifiers; the `Bool` flag on a
query frame records whether `isinstance(event, dict) and
event.get("kind") == 30008` holds for the carried payload. -/
abbrev Payload := Nat

/-- One frame received while querying one relay: an `EVENT` frame carrying
a subscription id, the kind-30008-dict check result and the payload; an
`EOSE` frame; or anything that fails parsing/shape checks (skipped by the
inner `except Exception: continue` / falls through the `if` chain). -/
inductive QFrame
  | event (sub : Str) (isDict30008 : Bool) (payload : Payload)
  | eose (sub : Str)
  | skipped

/-- What one relay endpoint does for a query: the connection (or send)
fails, or it delivers a finite window of frames (the window ends at the
read timeout or the 4-second deadline). -/
inductive Endpoint
  | connectFail
  | window (frames : List QFrame)

/-- The inner receive loop of `fetch_existing_profile_badges`
(recipient_acceptance.py lines 519-539): return the first matching
kind-30008 event, stop at a matching `EOSE`, skip everything else. -/
def queryWindow (reqId : Str) : List QFrame → Option Payload
  | [] => none
  | .event sub ok p :: rest =>
    if sub = reqId ∧ ok then some p else queryWindow reqId rest
  | .eose sub :: rest =>
    if sub = reqId then none else queryWindow reqId rest
  | .skipped :: rest => queryWindow reqId rest

/-- What one endpoint contributes to the query. -/
def endpointOutcome (reqId : Str) : Endpoint → Option Payload
  | .connectFail => none
  | .window fs => queryWindow reqId fs

/-- `fetch_existing_profile_badges` (recipient_acceptance.py lines
496-546): endpoints in order; a per-endpoint transport error is caught by
`except Exception: ... continue`; first match wins; `None` otherwise. -/
def fetch_existing_profile_badges (reqId : Str) : List Endpoint → Option Payload
  | [] => none
  | .connectFail :: rest => fetch_existing_profile_badges reqId rest
  | .window fs :: rest =>
    match queryWindow reqId fs with
    | some p => some p
    | none => fetch_existing_profile_badges reqId rest

/-!  ## Publish response windows (`relay_manager.py`, `nostr_utils.py`)  -/

/-- One frame received in the post-publish response window. -/
inductive RFrame
  | okFrame (eventId : Str) (accepted : Bool) (message : Str)
  | notice (message : Str)
  | closed (reason : Str)
  | skipped

/-- The mutable per-relay state touched by
`RelayManager._handle_relay_responses` (relay_manager.py lines 14-27). -/
structure RelayResult where
  published : Bool := false
  okMessage : Option Str := none
  noticeMessages : List Str := []
  errorMsg : Option Str := none
  deriving DecidableEq

/-- `_handle_relay_responses` (relay_manager.py lines 77-116): an `OK`
with `accepted = false` or a `CLOSED` frame returns immediately; a
`CLOSED` reason is recorded into `result.error`. -/
def handle_relay_responses (evId : Str) (r : RelayResult) : List RFrame → RelayResult
  | [] => r
  | .okFrame id acc msg :: rest =>
    if id = evId then
      let r1 := { r with published := acc, okMessage := some msg }
      if acc then handle_relay_responses evId r1 rest
      else { r1 with errorMsg := some ("Relay rejected: ".data ++ msg) }
    else handle_relay_responses evId r rest
  | .notice m :: rest =>
    handle_relay_responses evId { r with noticeMessages := r.noticeMessages ++ [m] } rest
  | .closed reason :: _ =>
    { r with errorMsg := some ("Connection closed: ".data ++ reason) }
  | .skipped :: rest => handle_relay_responses evId r rest

/-- The per-relay result dictionary of `nostr_utils.publish_event`
(nostr_utils.py lines 115-124), restricted to the response-window fields. -/
structure NostrRelayResult where
  okFlag : Option Bool := none
  okMsg : Option Str := none
  notice : List Str := []
  closed : Option Str := none
  deriving DecidableEq

/-- The response window of `nostr_utils.publish_event` (nostr_utils.py
lines 141-170): an explicit rejection breaks; a `CLOSED` frame records
`relay_result["closed"]` and the loop keeps reading. -/
def nostr_publish_window (evId : Str) (r : NostrRelayResult) : List RFrame → NostrRelayResult
  | [] => r
  | .okFrame id acc msg :: rest =>
    if id = evId then
      let r1 := { r with okFlag := some acc, okMsg := some msg }
      if acc then nostr_publish_window evId r1 rest else r1
    else nostr_publish_window evId r rest
  | .notice m :: rest =>
    nostr_publish_window evId { r with notice := r.notice ++ [m] } rest
  | .closed reason :: rest =>
    nostr_publish_window evId { r with closed := some reason } rest
  | .skipped :: rest => nostr_publish_window evId r rest

/-!  ## Acceptance workflow (`accept_badge`)  -/

/-- Fuel-indexed body of `parse_profile_badges_pairs`; the fuel (the
initial tag count) strictly exceeds every suffix the loop visits, so the
zero-fuel branch is never reached from the wrapper. -/
def parsePairsGo : Nat → List (List Str) → List BadgePair
  | 0, _ => []
  | _ + 1, [] => []
  | fuel + 1, tag :: rest =>
    if tag.headD [] = "a".data then
      let aVal := tag.getD 1 []
      match rest with
      | next :: rest1 =>
        if next.headD [] = "e".data then
          (aVal, some (next.getD 1 [])) :: parsePairsGo fuel rest1
        else (aVal, none) :: parsePairsGo fuel rest
      | [] => [(aVal, none)]
    else parsePairsGo fuel rest

/-- `parse_profile_badges_pairs` (recipient_acceptance.py lines 472-494),
for tag lists whose tags have at least two elements (shorter tags would
raise an `IndexError` in the source; `headD`/`getD` stand in for the
indexings that are in-bounds on every input exercised here). -/
def parse_profile_badges_pairs (tags : List (List Str)) : List BadgePair :=
  parsePairsGo tags.length tags

/-- Terminal status of `accept_badge` on the non-exception paths. -/
inductive AcceptStatus
  | success
  | publishedUnverified
  | mergeFailed
  deriving DecidableEq

/-- The external inputs consumed by one `accept_badge` run: the fetched
remote event's tags (or `None`), the backup directory, the two
`int(time.time())` readings at the backup writes, the signed event id,
and the per-relay `verified` flags reported by the relay manager. -/
structure AcceptEnv where
  fetchedTags : Option (List (List Str))
  store : Store
  tMerge : Nat
  tBackup : Nat
  eventId : Str
  verifiedFlags : List Bool

/-- What one `accept_badge` run did (non-exception paths). -/
structure AcceptOutcome where
  status : AcceptStatus
  store : Store
  cleanupRan : Bool
  totalBadges : Nat
  deriving DecidableEq

/-- The existing badge pairs an `accept_badge` run works from: the parsed
tags of the fetched remote event, or the empty list when nothing was
fetched (absence is not an error). -/
def fetchedPairs (env : AcceptEnv) : List BadgePair :=
  match env.fetchedTags with
  | some tags => parse_profile_badges_pairs tags
  | none => []

/-- `accept_badge` (recipient_acceptance.py lines 144-247), with the
network and clock inputs supplied by `env`: parse the fetched tags, merge,
back up the merged pairs before publishing, count the verified relays,
and run `cleanup_old_backups` only when `verified_count > 0`. -/
def accept_badge (env : AcceptEnv) (aTag : Str) (eTag : Str) : AcceptOutcome :=
  let existingPairs := fetchedPairs env
  let newPair : BadgePair := (aTag, some eTag)
  let mr := merge_badge_pairs env.tMerge env.store existingPairs newPair
  let success := mr.1.1
  let mergedPairs := mr.1.2.2
  let store1 := mr.2
  if ¬ success then
    { status := .mergeFailed, store := store1, cleanupRan := false,
      totalBadges := mergedPairs.length }
  else
    let store2 := create_backup env.tBackup env.eventId mergedPairs store1
    let verifiedCount := env.verifiedFlags.count true
    if verifiedCount > 0 then
      { status := .success, store := cleanup_old_backups store2, cleanupRan := true,
        totalBadges := mergedPairs.length }
    else
      { status := .publishedUnverified, store := store2, cleanupRan := false,
        totalBadges := mergedPairs.length }

/-- A concrete environment: nothing fetched, empty backup directory, one
relay that did not verify. -/
def sampleEnv : AcceptEnv :=
  { fetchedTags := none, store := [], tMerge := 0, tBackup := 1,
    eventId := eGood, verifiedFlags := [false] }

/-!  ## Backup store operation sequences (for the retention claim)  -/

/-- One operation on the backup directory: a snapshot write
(`create_backup` at time `t` for event id `eid`) or a retention cleanup. -/
inductive StoreOp
  | write (t : Nat) (eid : Str) (ps : List BadgePair)
  | prune

/-- Apply one operation to the store. -/
def applyStoreOp (store : Store) : StoreOp → Store
  | .write t eid ps => create_backup t eid ps store
  | .prune => cleanup_old_backups store

/-- Run a sequence of store operations from a given store. -/
def runStoreOps (store : Store) (ops : List StoreOp) : Store :=
  ops.foldl applyStoreOp store

/-- The filename key a write operation produces. -/
def opKey : StoreOp → Option (Nat × Str)
  | .write t eid _ => some (t, eid.take 8)
  | .prune => none

/-- The filename keys of the write operations of a sequence, in order. -/
def writeKeys (ops : List StoreOp) : List (Nat × Str) := ops.filterMap opKey

/-- Number of snapshot writes in a sequence. -/
def numWrites (ops : List StoreOp) : Nat := (writeKeys ops).length


/-- Six snapshot writes with pairwise-distinct filename keys. -/
def sixDistinctWrites : List StoreOp :=
  [.write 1 "e1".data [], .write 2 "e2".data [], .write 3 "e3".data [],
   .write 4 "e4".data [], .write 5 "e5".data [], .write 6 "e6".data []]

/-- Two snapshot writes in the same second for the same event id: both
produce the filename `profile_badges_1_du.json`-style key, so the second
write overwrites the first. -/
def twoCollidingWrites : List StoreOp :=
  [.write 1 "dup-event".data [], .write 1 "dup-event".data [(aGood, some eGood)]]

/-!  ## Helper lemmas  -/

theorem validatePairsGo_all_valid (l : List BadgePair) :
    ∀ i, (∀ p ∈ l, pairValid p) → validatePairsGo i l = .ok ([], l) := by
  induction l with
  | nil => intro i _; rfl
  | cons p rest ih =>
    intro i h
    have hp : validate_badge_pair p.1 p.2 = .ok none := h p (by simp)
    have hr := ih (i + 1) (fun q hq => h q (by simp [hq]))
    simp [validatePairsGo, hp, hr]

theorem validate_badge_pairs_all_valid (l : List BadgePair) (h : ∀ p ∈ l, pairValid p) :
    validate_badge_pairs l = .ok (true, [], l) := by
  simp [validate_badge_pairs, validatePairsGo_all_valid l 1 h]

theorem mergeStep1_all_valid (store : Store) (E : List BadgePair)
    (h : ∀ p ∈ E, pairValid p) : mergeStep1 store E = .ok E := by
  unfold mergeStep1
  by_cases hE : E.isEmpty
  · simp [hE]
  · simp [hE, validate_badge_pairs_all_valid E h]

theorem dedupGo_eq_self (l : List BadgePair) :
    ∀ seen, l.Nodup → (∀ p ∈ l, p ∉ seen) → dedupGo seen l = l := by
  induction l with
  | nil => intro seen _ _; rfl
  | cons p rest ih =>
    intro seen hnd hni
    have hp : p ∉ seen := hni p (by simp)
    have hrec : dedupGo (p :: seen) rest = rest := by
      apply ih
      · exact (List.nodup_cons.mp hnd).2
      · intro q hq
        simp only [List.mem_cons, not_or]
        exact ⟨fun he => (List.nodup_cons.mp hnd).1 (he ▸ hq),
          hni q (List.mem_cons_of_mem p hq)⟩
    simp [dedupGo, hp, hrec]

theorem dedupGo_append_mem (l : List BadgePair) :
    ∀ seen p, l.Nodup → (∀ q ∈ l, q ∉ seen) → (p ∈ l ∨ p ∈ seen) →
      dedupGo seen (l ++ [p]) = l := by
  induction l with
  | nil =>
    intro seen p _ _ hp
    have hps : p ∈ seen := by
      cases hp with
      | inl h => cases h
      | inr h => exact h
    simp [dedupGo, hps]
  | cons q rest ih =>
    intro seen p hnd hni hp
    have hq : q ∉ seen := hni q (by simp)
    have hrec : dedupGo (q :: seen) (rest ++ [p]) = rest := by
      apply ih
      · exact (List.nodup_cons.mp hnd).2
      · intro r hr
        simp only [List.mem_cons, not_or]
        exact ⟨fun he => (List.nodup_cons.mp hnd).1 (he ▸ hr),
          hni r (List.mem_cons_of_mem q hr)⟩
      · cases hp with
        | inl h =>
          cases List.mem_cons.mp h with
          | inl he => exact Or.inr (by simp [he])
          | inr hm => exact Or.inl hm
        | inr h => exact Or.inr (by simp [h])
    simp [dedupGo, hq, hrec]

theorem dedupPairs_append_not_mem (E : List BadgePair) (P : BadgePair)
    (hnd : E.Nodup) (hP : P ∉ E) : dedupPairs (E ++ [P]) = E ++ [P] := by
  apply dedupGo_eq_self
  · exact hnd.append (List.nodup_singleton P)
      (fun a ha hb => by simp at hb; exact hP (hb ▸ ha))
  · intro p _; simp

theorem dedupPairs_append_mem (E : List BadgePair) (P : BadgePair)
    (hnd : E.Nodup) (hP : P ∈ E) : dedupPairs (E ++ [P]) = E :=
  dedupGo_append_mem E [] P hnd (by simp) (Or.inl hP)

theorem merge_of_core_ok {t : Nat} {store : Store} {E : List BadgePair} {P : BadgePair}
    {r : MergeTriple × Store} (h : mergeCore t store E P = .ok r) :
    merge_badge_pairs t store E P = r := by
  unfold merge_badge_pairs
  rw [h]

theorem merge_of_core_error_not_success {t : Nat} {store : Store} {E : List BadgePair}
    {P : BadgePair} {d : MergeRaise} (h : mergeCore t store E P = .error d) :
    (merge_badge_pairs t store E P).1.1 = false := by
  unfold merge_badge_pairs
  rw [h]
  rcases d with ⟨e, exNow, storeNow⟩
  cases hbp : load_latest_backup storeNow with
  | none => simp [hbp]
  | some bp => cases bp <;> simp [hbp]

theorem mergeSteps2to7_success_shape {t : Nat} {store : Store} {ex1 : List BadgePair}
    {P : BadgePair} {r : MergeTriple × Store}
    (h : mergeSteps2to7 t store ex1 P = .ok r) (ht : r.1.1 = true) :
    r.1.2.2 = dedupPairs (ex1 ++ [P]) ∧ ¬ r.1.2.2.length < ex1.length := by
  unfold mergeSteps2to7 at h
  split at h
  · exact absurd h (by simp)
  · injection h with h2; rw [← h2] at ht; simp at ht
  · split at h
    · exact absurd h (by simp)
    · split at h
      · injection h with h2; rw [← h2] at ht; simp at ht
      · split at h
        · injection h with h2; rw [← h2] at ht; simp at ht
        · injection h with h2
          rw [← h2]
          refine ⟨rfl, ?_⟩
          simp_all

theorem mergeSteps2to7_valid_run (t : Nat) (store : Store) (ex1 : List BadgePair)
    (P : BadgePair) (hP : pairValid P)
    (hvD : validate_badge_pairs (dedupPairs (ex1 ++ [P]))
      = .ok (true, [], dedupPairs (ex1 ++ [P])))
    (hlen : ¬ (dedupPairs (ex1 ++ [P])).length < ex1.length) :
    mergeSteps2to7 t store ex1 P
      = .ok ((true, none, dedupPairs (ex1 ++ [P])), mergePreBackupStore t store ex1) := by
  unfold pairValid at hP
  unfold mergeSteps2to7
  rw [hP, hvD]
  simp [hlen]

/-!  ## Claims C1-C4: the Merge Engine  -/

/-- C1 (as stated, refuted): with two malformed existing pairs, no backup
and a valid new pair, the merge succeeds yet returns fewer pairs than the
original input list (step 1 silently replaced the malformed input with the
empty list). -/
theorem claim1_counterexample :
    (merge_badge_pairs 0 [] [("x".data, some "y".data), ("z".data, some "w".data)]
        (aGood, some eGood)).1.1 = true
    ∧ (merge_badge_pairs 0 [] [("x".data, some "y".data), ("z".data, some "w".data)]
        (aGood, some eGood)).1.2.2.length
      < [("x".data, some "y".data), ("z".data, some "w".data)].length := by decide

/-- C1 (amended): when every pair of the input list E passes
`validate_badge_pair`, a successful `merge_badge_pairs` never returns
fewer pairs than E (the step-7 guard compares against the step-1-adjusted
existing list, which equals E exactly when E is all-valid). -/
theorem claim1_no_loss_for_valid_existing (t : Nat) (store : Store) (E : List BadgePair)
    (P : BadgePair) (hE : ∀ p ∈ E, pairValid p)
    (hs : (merge_badge_pairs t store E P).1.1 = true) :
    E.length ≤ (merge_badge_pairs t store E P).1.2.2.length := by
  cases hc : mergeCore t store E P with
  | error d =>
    have hfalse := merge_of_core_error_not_success hc
    rw [hfalse] at hs
    cases hs
  | ok r =>
    have hmerge := merge_of_core_ok hc
    rw [hmerge] at hs ⊢
    unfold mergeCore at hc
    rw [mergeStep1_all_valid store E hE] at hc
    have := mergeSteps2to7_success_shape hc hs
    omega

/-- Witness for C1 (amended) at a concrete all-valid input. -/
theorem claim1_witness :
    ([(aGood, some eGood)] : List BadgePair).length
      ≤ (merge_badge_pairs 0 [] [(aGood, some eGood)] (aGood, some eGood2)).1.2.2.length :=
  claim1_no_loss_for_valid_existing 0 [] [(aGood, some eGood)] (aGood, some eGood2)
    (by decide) (by decide)

/-- C2 (as stated, refuted): an all-valid existing list that contains an
internal duplicate is deduplicated by step 5, so the successful merge
result is not `E ++ [P]`. -/
theorem claim2_counterexample :
    pairValid (aGood, some eGood)
    ∧ pairValid (aGood, some eGood2)
    ∧ (aGood, some eGood2) ∉ [((aGood : Str), some eGood), (aGood, some eGood)]
    ∧ (merge_badge_pairs 0 [] [(aGood, some eGood), (aGood, some eGood)]
        (aGood, some eGood2)).1.1 = true
    ∧ (merge_badge_pairs 0 [] [(aGood, some eGood), (aGood, some eGood)]
        (aGood, some eGood2)).1.2.2
      ≠ [(aGood, some eGood), (aGood, some eGood)] ++ [(aGood, some eGood2)] := by decide

/-- C2 (amended): for a duplicate-free all-valid existing list E and a
valid new pair P not in E, the merge succeeds and returns exactly
`E ++ [P]`, of length `|E| + 1`. -/
theorem claim2_merge_appends_new_pair (t : Nat) (store : Store) (E : List BadgePair)
    (P : BadgePair) (hE : ∀ p ∈ E, pairValid p) (hnd : E.Nodup) (hP : pairValid P)
    (hn : P ∉ E) :
    (merge_badge_pairs t store E P).1 = (true, none, E ++ [P])
    ∧ (E ++ [P]).length = E.length + 1 := by
  have hD : dedupPairs (E ++ [P]) = E ++ [P] := dedupPairs_append_not_mem E P hnd hn
  have hall : ∀ p ∈ E ++ [P], pairValid p := by
    intro p hp
    rcases List.mem_append.mp hp with h | h
    · exact hE p h
    · simp at h; rw [h]; exact hP
  have hv : validate_badge_pairs (dedupPairs (E ++ [P]))
      = .ok (true, [], dedupPairs (E ++ [P])) := by
    rw [hD]; exact validate_badge_pairs_all_valid _ hall
  have hlen : ¬ (dedupPairs (E ++ [P])).length < E.length := by
    rw [hD, List.length_append]; omega
  have hcore : mergeCore t store E P
      = .ok ((true, none, dedupPairs (E ++ [P])), mergePreBackupStore t store E) := by
    unfold mergeCore
    rw [mergeStep1_all_valid store E hE]
    exact mergeSteps2to7_valid_run t store E P hP hv hlen
  rw [merge_of_core_ok hcore]
  exact ⟨by simp [hD], by simp⟩

/-- Witness for C2 (amended) at a concrete input. -/
theorem claim2_witness :
    (merge_badge_pairs 0 [] [(aGood, some eGood)] (aGood, some eGood2)).1
      = (true, none, [(aGood, some eGood)] ++ [(aGood, some eGood2)]) :=
  (claim2_merge_appends_new_pair 0 [] [(aGood, some eGood)] (aGood, some eGood2)
    (by decide) (by decide) (by decide) (by decide)).1

/-- C3 (as stated, refuted): if the all-valid existing list has an internal
duplicate and the new pair is already present, deduplication shrinks the
list below `|E|` and the step-7 guard aborts the merge (`success = false`),
contradicting the claimed success. -/
theorem claim3_counterexample :
    pairValid (aGood, some eGood)
    ∧ (aGood, some eGood) ∈ [((aGood : Str), some eGood), (aGood, some eGood)]
    ∧ (merge_badge_pairs 0 [] [(aGood, some eGood), (aGood, some eGood)]
        (aGood, some eGood)).1.1 = false := by decide

/-- C3 (amended): for a duplicate-free all-valid existing list E and a
valid new pair P already in E, the merge succeeds and returns E itself
(length `|E|`, order preserved, no duplicate appended). -/
theorem claim3_merge_duplicate_keeps_existing (t : Nat) (store : Store) (E : List BadgePair)
    (P : BadgePair) (hE : ∀ p ∈ E, pairValid p) (hnd : E.Nodup) (hP : pairValid P)
    (hm : P ∈ E) :
    (merge_badge_pairs t store E P).1 = (true, none, E) := by
  have hD : dedupPairs (E ++ [P]) = E := dedupPairs_append_mem E P hnd hm
  have hv : validate_badge_pairs (dedupPairs (E ++ [P]))
      = .ok (true, [], dedupPairs (E ++ [P])) := by
    rw [hD]; exact validate_badge_pairs_all_valid _ hE
  have hlen : ¬ (dedupPairs (E ++ [P])).length < E.length := by
    rw [hD]; omega
  have hcore : mergeCore t store E P
      = .ok ((true, none, dedupPairs (E ++ [P])), mergePreBackupStore t store E) := by
    unfold mergeCore
    rw [mergeStep1_all_valid store E hE]
    exact mergeSteps2to7_valid_run t store E P hP hv hlen
  rw [merge_of_core_ok hcore]
  simp [hD]

/-- Witness for C3 (amended) at a concrete input. -/
theorem claim3_witness :
    (merge_badge_pairs 0 [] [(aGood, some eGood)] (aGood, some eGood)).1
      = (true, none, [(aGood, some eGood)]) :=
  claim3_merge_duplicate_keeps_existing 0 [] [(aGood, some eGood)] (aGood, some eGood)
    (by decide) (by decide) (by decide) (by decide)

/-- C4 (as stated, refuted): when the existing list itself contains an
invalid pair and no backup exists, step 1 replaces it with the empty list
before step 2 rejects the new pair, so the returned pair list is not the
original input E. -/
theorem claim4_counterexample :
    validate_badge_pair "z".data (some "w".data) = .ok (some .invalidATagFormat)
    ∧ (merge_badge_pairs 0 [] [("x".data, some "y".data)] ("z".data, some "w".data)).1.1
      = false
    ∧ (merge_badge_pairs 0 [] [("x".data, some "y".data)] ("z".data, some "w".data)).1.2.2
      ≠ [("x".data, some "y".data)] := by decide

/-- C4 (amended): when every pair of E passes validation (so step 1 leaves
E untouched) and the new pair fails validation, the merge aborts with the
invalid-new-pair error, returns E unchanged, and leaves the backup store
unchanged. -/
theorem claim4_invalid_new_pair_aborts (t : Nat) (store : Store) (E : List BadgePair)
    (P : BadgePair) (verr : VErr) (hE : ∀ p ∈ E, pairValid p)
    (hv : validate_badge_pair P.1 P.2 = .ok (some verr)) :
    merge_badge_pairs t store E P = ((false, some (.invalidNewPair verr), E), store) := by
  have hcore : mergeCore t store E P
      = .ok ((false, some (.invalidNewPair verr), E), store) := by
    unfold mergeCore
    rw [mergeStep1_all_valid store E hE]
    unfold mergeSteps2to7
    rw [hv]
  exact merge_of_core_ok hcore

/-- Witness for C4 (amended) at a concrete input. -/
theorem claim4_witness :
    merge_badge_pairs 0 [] [(aGood, some eGood)] ("z".data, some "w".data)
      = ((false, some (.invalidNewPair .invalidATagFormat), [(aGood, some eGood)]), []) :=
  claim4_invalid_new_pair_aborts 0 [] [(aGood, some eGood)] ("z".data, some "w".data)
    .invalidATagFormat (by decide) (by decide)

/-!  ## Claim C5: `validate_badge_pair`  -/

/-- C5 (as stated, refuted): an award reference of 64 UPPERCASE hex
characters is not "exactly 64 lowercase hex characters", yet
`validate_badge_pair` accepts it, because the source lowercases the string
before the hex-digit check. -/
theorem claim5_counterexample :
    validate_badge_pair aGood (some eUpper) = .ok none
    ∧ eUpper.all (fun c => hexDigits.contains c) = false
    ∧ eUpper.length = 64 := by decide

/-- C5 (amended): `validate_badge_pair` accepts `(a, e)` exactly when `a`
has the `30009:` prefix, splits on `:` into three segments with a
64-character case-insensitive-hex middle segment and a non-empty final
segment, and `e` is 64 case-insensitive hex characters (so each of the
claim's rejection cases holds with "lowercase hex" weakened to
"hex, case-insensitively"); with a present award reference it always
returns a verdict and never raises. -/
theorem claim5_validate_pair_characterization (a : Str) (e : Str) :
    (validate_badge_pair a (some e) = .ok none ↔
      (List.isPrefixOf "30009:".data a
       ∧ (splitColon a).length = 3
       ∧ ((splitColon a).getD 1 []).length = 64
       ∧ isHexCI ((splitColon a).getD 1 []) = true
       ∧ ((splitColon a).getD 2 []).isEmpty = false
       ∧ e.length = 64
       ∧ isHexCI e = true))
    ∧ ∃ r, validate_badge_pair a (some e) = .ok r := by
  constructor
  · simp only [validate_badge_pair]
    split_ifs with h1 h2 h3 h4 h5 <;> simp_all
  · simp only [validate_badge_pair]
    split_ifs <;> exact ⟨_, rfl⟩

/-!  ## Claim C6: Backup Store retention  -/

theorem create_backup_fresh (t : Nat) (eid : Str) (ps : List BadgePair) (store : Store)
    (h : (t, eid.take 8) ∉ store.map Snapshot.name) :
    create_backup t eid ps store = store ++ [⟨(t, eid.take 8), t, ps⟩] := by
  have hany : (store.any fun s => decide (s.name = (t, eid.take 8))) = false := by
    rw [List.any_eq_false]
    intro s hs
    simp only [decide_eq_true_eq]
    intro he
    exact h (List.mem_map.mpr ⟨s, hs, he⟩)
  unfold create_backup
  simp only [hany]
  rfl

theorem insertByMtime_length (s : Snapshot) (l : Store) :
    (insertByMtime s l).length = l.length + 1 := by
  induction l with
  | nil => rfl
  | cons x xs ih =>
    unfold insertByMtime
    split <;> simp [ih]

theorem sortByMtime_length (l : Store) : (sortByMtime l).length = l.length := by
  induction l with
  | nil => rfl
  | cons x xs ih => simp [sortByMtime, insertByMtime_length, ih]

theorem mem_insertByMtime {x s : Snapshot} {l : Store} (h : x ∈ insertByMtime s l) :
    x = s ∨ x ∈ l := by
  induction l with
  | nil => simp [insertByMtime] at h; exact Or.inl h
  | cons y ys ih =>
    unfold insertByMtime at h
    split at h
    · rcases List.mem_cons.mp h with h1 | h1
      · exact Or.inr (by simp [h1])
      · rcases ih h1 with h2 | h2
        · exact Or.inl h2
        · exact Or.inr (by simp [h2])
    · rcases List.mem_cons.mp h with h1 | h1
      · exact Or.inl h1
      · exact Or.inr h1

theorem mem_sortByMtime {x : Snapshot} {l : Store} (h : x ∈ sortByMtime l) : x ∈ l := by
  induction l with
  | nil => simp [sortByMtime] at h
  | cons y ys ih =>
    unfold sortByMtime at h
    rcases mem_insertByMtime h with h1 | h1
    · simp [h1]
    · simp [ih h1]

theorem mem_cleanup {x : Snapshot} {store : Store} (h : x ∈ cleanup_old_backups store) :
    x ∈ store := by
  unfold cleanup_old_backups at h
  split at h
  · exact h
  · exact mem_sortByMtime (List.take_subset _ _ h)

theorem cleanup_length (store : Store) :
    (cleanup_old_backups store).length = min store.length max_backups := by
  unfold cleanup_old_backups
  split
  case isTrue h => omega
  case isFalse h =>
    rw [List.length_take, sortByMtime_length]
    omega

theorem writeKeys_write (t : Nat) (eid : Str) (ps : List BadgePair) (rest : List StoreOp) :
    writeKeys (.write t eid ps :: rest) = (t, eid.take 8) :: writeKeys rest := by
  simp [writeKeys, opKey]

theorem writeKeys_prune (rest : List StoreOp) :
    writeKeys (.prune :: rest) = writeKeys rest := by
  simp [writeKeys, opKey]

theorem runStoreOps_length_le (ops : List StoreOp) :
    ∀ store : Store, (runStoreOps store ops).length ≤ store.length + numWrites ops := by
  induction ops with
  | nil => intro store; simp [runStoreOps, numWrites, writeKeys]
  | cons op rest ih =>
    intro store
    cases op with
    | write t eid ps =>
      have h1 : (create_backup t eid ps store).length ≤ store.length + 1 := by
        unfold create_backup
        by_cases hc : (store.any fun s => decide (s.name = (t, eid.take 8))) = true
        · simp [hc]
        · simp [hc]
      have h2 := ih (create_backup t eid ps store)
      have h3 : (runStoreOps store (.write t eid ps :: rest)).length
          = (runStoreOps (create_backup t eid ps store) rest).length := rfl
      have h4 : numWrites (StoreOp.write t eid ps :: rest) = numWrites rest + 1 := by
        simp [numWrites, writeKeys_write]
      omega
    | prune =>
      have h1 : (cleanup_old_backups store).length ≤ store.length := by
        rw [cleanup_length]; omega
      have h2 := ih (cleanup_old_backups store)
      have h3 : (runStoreOps store (.prune :: rest)).length
          = (runStoreOps (cleanup_old_backups store) rest).length := rfl
      have h4 : numWrites (StoreOp.prune :: rest) = numWrites rest := by
        simp [numWrites, writeKeys_prune]
      omega

theorem runStoreOps_length_ge (ops : List StoreOp) :
    ∀ store : Store, (writeKeys ops).Nodup →
      (∀ k ∈ writeKeys ops, k ∉ store.map Snapshot.name) →
      min (store.length + numWrites ops) max_backups ≤ (runStoreOps store ops).length := by
  induction ops with
  | nil =>
    intro store _ _
    simp only [runStoreOps, List.foldl_nil, numWrites, writeKeys, List.filterMap_nil,
      List.length_nil, Nat.add_zero, max_backups]
    omega
  | cons op rest ih =>
    intro store hnd hdisj
    cases op with
    | write t eid ps =>
      have hkey : (t, eid.take 8) ∉ store.map Snapshot.name :=
        hdisj _ (by rw [writeKeys_write]; exact List.mem_cons_self _ _)
      have heq := create_backup_fresh t eid ps store hkey
      have hndw : ((t, eid.take 8) :: writeKeys rest).Nodup := by
        rwa [writeKeys_write] at hnd
      have hnd1 : (writeKeys rest).Nodup := (List.nodup_cons.mp hndw).2
      have hdisj1 : ∀ k ∈ writeKeys rest,
          k ∉ (create_backup t eid ps store).map Snapshot.name := by
        intro k hk hmem
        rw [heq, List.map_append, List.mem_append] at hmem
        rcases hmem with hmem | hmem
        · exact hdisj k (by rw [writeKeys_write]; exact List.mem_cons_of_mem _ hk)
            (by simpa using hmem)
        · simp at hmem
          exact (List.nodup_cons.mp hndw).1 (hmem ▸ hk)
      have hrec := ih (create_backup t eid ps store) hnd1 hdisj1
      have hlen : (create_backup t eid ps store).length = store.length + 1 := by
        rw [heq]; simp
      have h3 : (runStoreOps store (.write t eid ps :: rest)).length
          = (runStoreOps (create_backup t eid ps store) rest).length := rfl
      have h4 : numWrites (StoreOp.write t eid ps :: rest) = numWrites rest + 1 := by
        simp [numWrites, writeKeys_write]
      simp only [max_backups] at *
      omega
    | prune =>
      have hnd1 : (writeKeys rest).Nodup := by rwa [writeKeys_prune] at hnd
      have hdisj1 : ∀ k ∈ writeKeys rest,
          k ∉ (cleanup_old_backups store).map Snapshot.name := by
        intro k hk hmem
        rcases List.mem_map.mp hmem with ⟨x, hx, hname⟩
        exact hdisj k (by rwa [writeKeys_prune])
          (List.mem_map.mpr ⟨x, mem_cleanup hx, hname⟩)
      have hrec := ih (cleanup_old_backups store) hnd1 hdisj1
      have hclen := cleanup_length store
      have h3 : (runStoreOps store (.prune :: rest)).length
          = (runStoreOps (cleanup_old_backups store) rest).length := rfl
      have h4 : numWrites (StoreOp.prune :: rest) = numWrites rest := by
        simp [numWrites, writeKeys_prune]
      simp only [max_backups] at *
      omega

/-- C6 (as stated, refuted): (i) six distinct-key writes with no cleanup
leave 6 snapshots, not `min(6, 5)`; (ii) two writes in the same second
with the same event id collide on the backup filename, so the second
overwrites the first and only `min(2, 5) - 1 = 1` snapshot is stored. -/
theorem claim6_counterexample :
    (runStoreOps [] sixDistinctWrites).length
      ≠ min (numWrites sixDistinctWrites) max_backups
    ∧ (runStoreOps [] twoCollidingWrites).length
      ≠ min (numWrites twoCollidingWrites) max_backups := by decide

/-- C6 (amended): starting from an empty backup directory, for any
interleaving of snapshot writes and cleanups whose write keys
`(timestamp, event_id[:8])` are pairwise distinct and which ends with a
cleanup, the store holds exactly `min(n, 5)` snapshots for `n` writes;
moreover a write whose key is fresh appends a brand-new snapshot and
overwrites nothing. -/
theorem claim6_retention_min_writes :
    (∀ ops : List StoreOp, (writeKeys ops).Nodup →
      (∃ ops0, ops = ops0 ++ [StoreOp.prune]) →
      (runStoreOps [] ops).length = min (numWrites ops) max_backups)
    ∧ (∀ (t : Nat) (eid : Str) (ps : List BadgePair) (store : Store),
        (t, eid.take 8) ∉ store.map Snapshot.name →
        create_backup t eid ps store = store ++ [⟨(t, eid.take 8), t, ps⟩]) := by
  constructor
  · rintro ops hnd ⟨ops0, rfl⟩
    have hrun : runStoreOps [] (ops0 ++ [StoreOp.prune])
        = cleanup_old_backups (runStoreOps [] ops0) := by
      simp [runStoreOps, List.foldl_append, applyStoreOp]
    have hkeys : writeKeys (ops0 ++ [StoreOp.prune]) = writeKeys ops0 := by
      simp [writeKeys, opKey, List.filterMap_append]
    have hnd0 : (writeKeys ops0).Nodup := by rwa [hkeys] at hnd
    have hub := runStoreOps_length_le ops0 []
    have hlb := runStoreOps_length_ge ops0 [] hnd0 (by intro k _ hk; simp at hk)
    have hnw : numWrites (ops0 ++ [StoreOp.prune]) = numWrites ops0 := by
      simp [numWrites, hkeys]
    rw [hrun, cleanup_length, hnw]
    simp only [List.length_nil, Nat.zero_add] at hub hlb
    simp only [max_backups] at *
    omega
  · exact create_backup_fresh

/-- Witness for C6 (amended): six distinct writes followed by a cleanup
retain `min(6, 5) = 5` snapshots, and a fresh-key write appends. -/
theorem claim6_witness :
    (runStoreOps [] (sixDistinctWrites ++ [StoreOp.prune])).length
      = min (numWrites (sixDistinctWrites ++ [StoreOp.prune])) max_backups
    ∧ create_backup 9 "zz".data [] []
      = [] ++ [⟨(9, ("zz".data : Str).take 8), 9, []⟩] :=
  ⟨claim6_retention_min_writes.1 _ (by decide) ⟨sixDistinctWrites, rfl⟩,
   claim6_retention_min_writes.2 9 "zz".data [] [] (by decide)⟩

/-!  ## Claim C7: per-endpoint transport errors in queries  -/

/-- C7: in `fetch_existing_profile_badges`, a transport error on one
endpoint is swallowed (`except Exception: continue`): the query behaves
exactly as if that endpoint were absent, and when no endpoint yields a
matching record the query returns `None`. -/
theorem claim7_transport_error_swallowed :
    (∀ (reqId : Str) (pre post : List Endpoint),
      fetch_existing_profile_badges reqId (pre ++ Endpoint.connectFail :: post)
        = fetch_existing_profile_badges reqId (pre ++ post))
    ∧ (∀ (reqId : Str) (es : List Endpoint),
        (∀ b ∈ es, endpointOutcome reqId b = none) →
        fetch_existing_profile_badges reqId es = none) := by
  constructor
  · intro reqId pre post
    induction pre with
    | nil => rfl
    | cons b pre ih =>
      cases b with
      | connectFail =>
        simpa only [List.cons_append, fetch_existing_profile_badges] using ih
      | window fs =>
        simp only [List.cons_append, fetch_existing_profile_badges]
        cases queryWindow reqId fs with
        | none => exact ih
        | some p => rfl
  · intro reqId es h
    induction es with
    | nil => rfl
    | cons b rest ih =>
      have hb := h b (List.mem_cons_self _ _)
      have hrest := ih (fun x hx => h x (List.mem_cons_of_mem _ hx))
      cases b with
      | connectFail =>
        simpa only [fetch_existing_profile_badges] using hrest
      | window fs =>
        have hw : queryWindow reqId fs = none := hb
        simp only [fetch_existing_profile_badges, hw]
        exact hrest

/-- Witness for C7 at a concrete endpoint list: a failing endpoint
followed by an endpoint that answers only `EOSE` yields `None`. -/
theorem claim7_witness :
    fetch_existing_profile_badges "r".data
      [Endpoint.connectFail, Endpoint.window [QFrame.eose "r".data]] = none :=
  claim7_transport_error_swallowed.2 "r".data
    [Endpoint.connectFail, Endpoint.window [QFrame.eose "r".data]] (by decide)

/-!  ## Claim C8: CLOSED frames in the post-publish response window  -/

/-- C8 (as stated, refuted): in `nostr_utils.publish_event`'s response
window, a CLOSED frame records the reason into the `closed` field but is
NOT terminal — a later OK frame in the same window is still processed and
sets the `ok` fields. -/
theorem claim8_counterexample :
    nostr_publish_window "i".data {}
      [RFrame.closed "why".data, RFrame.okFrame "i".data true "fine".data]
      = { okFlag := some true, okMsg := some "fine".data, notice := [],
          closed := some "why".data } := by decide

/-- C8 (amended): the two response-window implementations split the
claimed behaviour: `relay_manager._handle_relay_responses` treats CLOSED
as terminal but records the reason in the `error` field (there is no
`closedReason` field there), while `nostr_utils.publish_event` records
the reason in its `closed` field but keeps reading the remaining frames
of the window. -/
theorem claim8_closed_handling (evId reason : Str) (fs : List RFrame)
    (r : RelayResult) (n : NostrRelayResult) :
    handle_relay_responses evId r (RFrame.closed reason :: fs)
      = { r with errorMsg := some ("Connection closed: ".data ++ reason) }
    ∧ nostr_publish_window evId n (RFrame.closed reason :: fs)
      = nostr_publish_window evId { n with closed := some reason } fs :=
  ⟨rfl, rfl⟩

/-!  ## Claim C9: retention pruning only on verified success  -/

theorem create_backup_length_ge (t : Nat) (eid : Str) (ps : List BadgePair) (store : Store) :
    store.length ≤ (create_backup t eid ps store).length := by
  unfold create_backup
  by_cases hc : (store.any fun s => decide (s.name = (t, eid.take 8))) = true
  · simp [hc]
  · simp [hc]

theorem mergePreBackupStore_length_ge (t : Nat) (store : Store) (ex1 : List BadgePair) :
    store.length ≤ (mergePreBackupStore t store ex1).length := by
  unfold mergePreBackupStore
  split
  · exact Nat.le_refl _
  · exact create_backup_length_ge t (preMergeEventId t) ex1 store

theorem mergeSteps2to7_store_ok {t : Nat} {store : Store} {ex1 : List BadgePair}
    {P : BadgePair} {r : MergeTriple × Store}
    (h : mergeSteps2to7 t store ex1 P = .ok r) : store.length ≤ r.2.length := by
  unfold mergeSteps2to7 at h
  split at h
  · exact absurd h (by simp)
  · injection h with h2; rw [← h2]
  · split at h
    · exact absurd h (by simp)
    · split at h
      · injection h with h2; rw [← h2]; exact mergePreBackupStore_length_ge t store ex1
      · split at h
        · injection h with h2; rw [← h2]; exact mergePreBackupStore_length_ge t store ex1
        · injection h with h2; rw [← h2]; exact mergePreBackupStore_length_ge t store ex1

theorem mergeSteps2to7_store_error {t : Nat} {store : Store} {ex1 : List BadgePair}
    {P : BadgePair} {d : MergeRaise}
    (h : mergeSteps2to7 t store ex1 P = .error d) : store.length ≤ d.2.2.length := by
  unfold mergeSteps2to7 at h
  split at h
  · injection h with h2; rw [← h2]
  · exact absurd h (by simp)
  · split at h
    · injection h with h2; rw [← h2]; exact mergePreBackupStore_length_ge t store ex1
    · split at h
      · exact absurd h (by simp)
      · split at h <;> exact absurd h (by simp)

theorem mergeStep1_store_error {store : Store} {E : List BadgePair} {d : MergeRaise}
    (h : mergeStep1 store E = .error d) : d.2.2 = store := by
  unfold mergeStep1 at h
  split at h
  · exact absurd h (by simp)
  · split at h
    · injection h with h2; rw [← h2]
    · split at h
      · exact absurd h (by simp)
      · split at h <;> exact absurd h (by simp)

theorem merge_store_length_ge (t : Nat) (store : Store) (E : List BadgePair) (P : BadgePair) :
    store.length ≤ (merge_badge_pairs t store E P).2.length := by
  unfold merge_badge_pairs
  cases hc : mergeCore t store E P with
  | ok r =>
    have hle : store.length ≤ r.2.length := by
      unfold mergeCore at hc
      split at hc
      · exact absurd hc (by simp)
      · exact mergeSteps2to7_store_ok hc
    exact hle
  | error d =>
    rcases d with ⟨e, exNow, storeNow⟩
    have hle : store.length ≤ storeNow.length := by
      unfold mergeCore at hc
      split at hc
      case h_1 d0 heq =>
        have hst := mergeStep1_store_error heq
        injection hc with h2
        rw [h2] at hst
        simp only [] at hst
        rw [← hst]
      case h_2 ex1 heq =>
        exact mergeSteps2to7_store_error hc
    cases hbp : load_latest_backup storeNow with
    | none => simpa [hbp] using hle
    | some bp => cases bp <;> simpa [hbp] using hle

/-- C9: `cleanup_old_backups` runs exactly when the merge succeeded and at
least one relay verified the published event; with a successful merge and
zero verified relays, `accept_badge` returns the `published_unverified`
outcome and deletes no backup snapshot (the store only grows through the
two backup writes). -/
theorem claim9_prune_only_on_verified_success (env : AcceptEnv) (aTag eTag : Str) :
    ((accept_badge env aTag eTag).cleanupRan = true ↔
      ((merge_badge_pairs env.tMerge env.store (fetchedPairs env) (aTag, some eTag)).1.1 = true
        ∧ 0 < env.verifiedFlags.count true))
    ∧ ((merge_badge_pairs env.tMerge env.store (fetchedPairs env) (aTag, some eTag)).1.1
        = true →
       env.verifiedFlags.count true = 0 →
       (accept_badge env aTag eTag).status = .publishedUnverified
       ∧ env.store.length ≤ (accept_badge env aTag eTag).store.length) := by
  constructor
  · by_cases hs : (merge_badge_pairs env.tMerge env.store (fetchedPairs env)
        (aTag, some eTag)).1.1 = true
    · by_cases hv : 0 < env.verifiedFlags.count true
      · simp [accept_badge, hs, hv]
      · simp [accept_badge, hs, hv]
    · simp [accept_badge, hs]
  · intro hs hv0
    have h1 := merge_store_length_ge env.tMerge env.store (fetchedPairs env) (aTag, some eTag)
    have h2 := create_backup_length_ge env.tBackup env.eventId
      (merge_badge_pairs env.tMerge env.store (fetchedPairs env) (aTag, some eTag)).1.2.2
      (merge_badge_pairs env.tMerge env.store (fetchedPairs env) (aTag, some eTag)).2
    constructor
    · simp [accept_badge, hs, hv0]
    · simp only [accept_badge, hs]
      simp [hv0]
      omega

/-- Witness for C9 at a concrete environment with one unverified relay. -/
theorem claim9_witness :
    (accept_badge sampleEnv aGood eGood).status = .publishedUnverified
    ∧ sampleEnv.store.length ≤ (accept_badge sampleEnv aGood eGood).store.length :=
  (claim9_prune_only_on_verified_success sampleEnv aGood eGood).2 (by decide) (by decide)

/-!  ## Claim C10: exception handling in `merge_badge_pairs`  -/

/-- C10 (as stated, refuted): with an invalid (format-bad) existing pair,
no backup, and a new pair whose award reference is `None` (which makes
`validate_badge_pair` raise `TypeError` at step 2), the exception handler
returns the rebound `existing_pairs` — the empty list — which is neither a
backup's pairs (the store holds none) nor the original input list. -/
theorem claim10_counterexample :
    (merge_badge_pairs 0 [] [("x".data, some "y".data)] (aGood, none)).1.1 = false
    ∧ (merge_badge_pairs 0 [] [("x".data, some "y".data)] (aGood, none)).1.2.2 = []
    ∧ ([(("x".data : Str), some "y".data)] : List BadgePair) ≠ []
    ∧ load_latest_backup
        ((merge_badge_pairs 0 [] [("x".data, some "y".data)] (aGood, none)).2) = none := by
  decide

/-- C10 (amended): every internal exception is caught and converted into a
failure triple; the triple's pair-list component is the current value of
the `existing_pairs` variable at the raise point (which step 1 may already
have rebound away from the input) or, when a non-empty backup exists at
handler time, that latest backup's pairs. -/
theorem claim10_exception_to_failure_triple (t : Nat) (store : Store) (E : List BadgePair)
    (P : BadgePair) (err : PyErr) (exNow : List BadgePair) (storeNow : Store)
    (h : mergeCore t store E P = .error (err, exNow, storeNow)) :
    (merge_badge_pairs t store E P).1.1 = false
    ∧ ((merge_badge_pairs t store E P).1.2.2 = exNow
       ∨ load_latest_backup storeNow = some ((merge_badge_pairs t store E P).1.2.2)) := by
  unfold merge_badge_pairs
  rw [h]
  cases hbp : load_latest_backup storeNow with
  | none => simp [hbp]
  | some bp =>
    cases bp with
    | nil => simp [hbp]
    | cons x xs => simp [hbp]

/-- Witness for C10 at a concrete raising input: an empty existing list
and a new pair with a `None` award reference. -/
theorem claim10_witness :
    (merge_badge_pairs 0 [] [] (aGood, none)).1.1 = false
    ∧ ((merge_badge_pairs 0 [] [] (aGood, none)).1.2.2 = []
       ∨ load_latest_backup ([] : Store)
         = some ((merge_badge_pairs 0 [] [] (aGood, none)).1.2.2)) :=
  claim10_exception_to_failure_triple 0 [] [] (aGood, none) .typeErrorLenNone [] []
    (by rfl)

end NostrBadges
